import Mathlib

/-!
Navigation and listing engine of the GTK file manager (`src/main.c`).

A shallow embedding of the engine functions of `main.c`:
`format_size`, `navigate_to_path`, `update_statusbar`, `refresh_file_list`,
`on_go_up`, `on_refresh` and `on_toggle_hidden`.

* A C string is the list of its characters before the terminating NUL; one
  `Char` stands for one C `char`.
* The operating system is a record `Env` of the results of the calls the
  program makes (`stat`, `realpath`, `opendir`/`readdir`, `strftime`), one
  snapshot per operation.
* The widgets the engine writes to are kept as their contents: the rows of the
  list store, the text of the path entry, the message stack of the status bar.
* `refresh_file_list` hands the result of `localtime` to `strftime` unchecked;
  when `localtime` returns `NULL` the process faults. The state then carries
  `crashed := true` and keeps what had been written before the fault.
-/

namespace CFileManager

/-- C string: the characters before the terminating NUL. -/
abbrev CStr := List Char

/-! ## Formatting helpers of the C library -/

/-- Conversion `%d` / `%ld` of `printf`: decimal digits, with a minus sign for
negative values. -/
def fmt_d (n : Int) : CStr :=
  if n < 0 then '-' :: Nat.toDigits 10 n.natAbs else Nat.toDigits 10 n.toNat

/-- Value of the C `int` that a 32-bit two's complement machine keeps for the
mathematical integer `x`. -/
def wrap_int (x : Int) : Int := (x + 2 ^ 31) % 2 ^ 32 - 2 ^ 31

/-- Conversion of a non-negative integer to `double` (53-bit significand, round
to nearest, ties to even). The result is again an integer; below `2 ^ 53` the
conversion is exact. -/
def to_double (n : Nat) : Nat :=
  if n < 2 ^ 53 then n
  else
    let u := 2 ^ (Nat.log2 n - 52)
    let q := n / u
    let r := n % u
    if 2 * r < u then q * u
    else if u < 2 * r then (q + 1) * u
    else if q % 2 = 0 then q * u
    else (q + 1) * u

/-- Number of tenths printed by `%.1f` for the exact value `num / den`
(`den > 0`): the nearest multiple of one tenth, a tie going to the even one. -/
def tenths (num den : Nat) : Nat :=
  let q := (num * 10) / den
  let r := (num * 10) % den
  if 2 * r < den then q
  else if den < 2 * r then q + 1
  else if q % 2 = 0 then q
  else q + 1

/-- Conversion `%.1f` of `printf` applied to the double whose exact value is
`num / den`: integer part, a point, one digit. -/
def fmt_1f (num den : Nat) : CStr :=
  Nat.toDigits 10 (tenths num den / 10) ++ ['.', Nat.digitChar (tenths num den % 10)]

/-! ## `format_size` -/

/-- Embedding of `format_size(off_t size)`. The divisions `size / 1024.0`,
`size / (1024.0 * 1024)` and `size / (1024.0 * 1024 * 1024)` are divisions of a
double by a power of two and therefore exact: the value printed by `%.1f` is
the rational `to_double size / 1024 ^ k`. -/
def format_size (size : Int) : CStr :=
  if size < 1024 then
    fmt_d size ++ " B".toList
  else if size < 1024 * 1024 then
    fmt_1f (to_double size.toNat) 1024 ++ " KB".toList
  else if size < 1024 * 1024 * 1024 then
    fmt_1f (to_double size.toNat) (1024 * 1024) ++ " MB".toList
  else
    fmt_1f (to_double size.toNat) (1024 * 1024 * 1024) ++ " GB".toList

/-! ## The operating system and the state -/

/-- The fields of `struct stat` the program reads. -/
structure Stat where
  /-- Result of `S_ISDIR(st_mode)`. -/
  is_dir : Bool
  /-- Field `st_size` (an `off_t`). -/
  st_size : Int
  /-- Field `st_mtime`. -/
  st_mtime : Int
deriving DecidableEq

/-- One snapshot of the operating system, as the results of the calls made by
the program. -/
structure Env where
  /-- The constant `PATH_MAX` of the platform headers. -/
  path_max : Nat
  /-- Result of `stat(path, &st)`: `none` when it returns `-1`. -/
  stat : CStr → Option Stat
  /-- Result of `realpath(path, resolved)`: `none` when it returns `NULL`. -/
  realpath : CStr → Option CStr
  /-- Result of `opendir(path)`: `none` when it returns `NULL`, otherwise the
  names `readdir` yields, in order. -/
  opendir : CStr → Option (List CStr)
  /-- Result of `strftime` with `%Y-%m-%d %H:%M` on `localtime` of a
  modification time: `none` when `localtime` returns `NULL` (the time cannot be
  converted), otherwise the text written. -/
  strftime_local : Int → Option CStr

/-- One row of the list store: the columns `COL_ICON`, `COL_NAME`, `COL_SIZE`
and `COL_MODIFIED`. -/
structure Row where
  icon : CStr
  name : CStr
  size : CStr
  modified : CStr
deriving DecidableEq

/-- The state the engine reads and writes: the fields `current_path` and
`show_hidden` of the C struct, the contents of the widgets `store`,
`path_entry` and `statusbar` (message stack, top first), and what `perror` has
written to standard error. `crashed` records that the process has faulted
(`strftime` was handed the `NULL` of a failed `localtime`); the other fields
are then what had been written before the fault, and no later callback runs
(see `run`). -/
structure FileManager where
  store : List Row
  path_entry : CStr
  statusbar : List CStr
  current_path : CStr
  show_hidden : Bool
  stderr : List CStr
  crashed : Bool
deriving DecidableEq

/-- Text written by `snprintf(full_path, sizeof(full_path), "%s/%s", dir, name)`
into a buffer of `PATH_MAX` bytes: at most `PATH_MAX - 1` characters are kept. -/
def full_path (env : Env) (dir name : CStr) : CStr :=
  (dir ++ '/' :: name).take (env.path_max - 1)

/-- Test `strcmp(d_name, ".") == 0 || strcmp(d_name, "..") == 0`. -/
def is_dot_or_dotdot (name : CStr) : Bool :=
  name == ['.'] || name == ['.', '.']

/-- Test `d_name[0] == '.'`. -/
def starts_with_dot (name : CStr) : Bool :=
  name.head? == some '.'

/-! ## `update_statusbar` -/

/-- The `readdir` loop of `update_statusbar`, from the counters
`(total_items, hidden_items)`; both are C `int`s. -/
def count_entries : List CStr → Int × Int → Int × Int
  | [], acc => acc
  | name :: rest, (total_items, hidden_items) =>
    if is_dot_or_dotdot name then count_entries rest (total_items, hidden_items)
    else
      count_entries rest
        (wrap_int (total_items + 1),
         if starts_with_dot name then wrap_int (hidden_items + 1) else hidden_items)

/-- The text `update_statusbar` formats from the two counters. -/
def status_text (show_hidden : Bool) (total_items hidden_items : Int) : CStr :=
  if show_hidden then
    fmt_d total_items ++ " items".toList
  else
    fmt_d (wrap_int (total_items - hidden_items)) ++ " items (".toList
      ++ fmt_d hidden_items ++ " hidden)".toList

/-- Embedding of `update_statusbar`: scan the directory again, format the
counts, replace the top message of the status bar. -/
def update_statusbar (env : Env) (fm : FileManager) : FileManager :=
  let counts : Int × Int :=
    match env.opendir fm.current_path with
    | some names => count_entries names (0, 0)
    | none => (0, 0)
  { fm with statusbar := status_text fm.show_hidden counts.1 counts.2 :: fm.statusbar.tail }

/-! ## `refresh_file_list` -/

/-- The row `gtk_list_store_append` adds, before `gtk_list_store_set` fills its
columns. -/
def unset_row : Row :=
  { icon := [], name := [], size := [], modified := [] }

/-- The row filled in for a name whose `stat` succeeded: icon, name, size and
the text of `strftime`; `none` when `localtime` returned `NULL`, where the call
of `strftime` faults. -/
def make_row (env : Env) (name : CStr) (st : Stat) : Option Row :=
  match env.strftime_local st.st_mtime with
  | none => none
  | some time_str =>
    some
      { icon := if st.is_dir then "folder".toList else "text-x-generic".toList
        name := name
        size := if st.is_dir then [] else format_size st.st_size
        modified := time_str }

/-- The `readdir` loop of `refresh_file_list`: the rows appended to the store,
in order, and whether the loop faulted. At a fault the row just appended is
still unset and the loop goes no further. -/
def list_rows (env : Env) (current_path : CStr) (show_hidden : Bool) :
    List CStr → List Row × Bool
  | [] => ([], false)
  | name :: rest =>
    if is_dot_or_dotdot name then list_rows env current_path show_hidden rest
    else if !show_hidden && starts_with_dot name then list_rows env current_path show_hidden rest
    else
      match env.stat (full_path env current_path name) with
      | none => list_rows env current_path show_hidden rest
      | some st =>
        match make_row env name st with
        | none => ([unset_row], true)
        | some row =>
          (row :: (list_rows env current_path show_hidden rest).1,
           (list_rows env current_path show_hidden rest).2)

/-- Embedding of `refresh_file_list`: clear the store; when `opendir` fails,
`perror` and return; otherwise append one row per surviving entry and, unless
the loop faulted, call `update_statusbar`. -/
def refresh_file_list (env : Env) (fm : FileManager) : FileManager :=
  let fm1 := { fm with store := [] }
  match env.opendir fm1.current_path with
  | none => { fm1 with stderr := fm1.stderr ++ ["opendir".toList] }
  | some names =>
    let fm2 :=
      { fm1 with store := fm1.store ++ (list_rows env fm1.current_path fm1.show_hidden names).1 }
    if (list_rows env fm1.current_path fm1.show_hidden names).2 then
      { fm2 with crashed := true }
    else update_statusbar env fm2

/-! ## Navigation -/

/-- Embedding of `navigate_to_path`. -/
def navigate_to_path (env : Env) (fm : FileManager) (path : CStr) : FileManager :=
  match env.stat path with
  | none => fm
  | some st =>
    if st.is_dir then
      match env.realpath path with
      | none => fm
      | some resolved =>
        refresh_file_list env { fm with current_path := resolved, path_entry := resolved }
    else fm

/-- Result of `strrchr(s, c)` for a character `c` other than NUL: the index of
the last occurrence of `c`, `none` for `NULL`. -/
def strrchr (c : Char) : CStr → Option Nat
  | [] => none
  | x :: xs =>
    match strrchr c xs with
    | some i => some (i + 1)
    | none => if x = c then some 0 else none

/-- The new content of `current_path` in `on_go_up` when it is not `"/"`. -/
def parent_path (current_path : CStr) : CStr :=
  match strrchr '/' current_path with
  | some (i + 1) => current_path.take (i + 1)
  | some 0 => ['/']
  | none => current_path

/-- Embedding of `on_go_up`. -/
def on_go_up (env : Env) (fm : FileManager) : FileManager :=
  if fm.current_path ≠ ['/'] then
    refresh_file_list env
      { fm with current_path := parent_path fm.current_path
                path_entry := parent_path fm.current_path }
  else fm

/-- Embedding of `on_refresh`. -/
def on_refresh (env : Env) (fm : FileManager) : FileManager :=
  refresh_file_list env fm

/-- Embedding of `on_toggle_hidden`. -/
def on_toggle_hidden (env : Env) (fm : FileManager) : FileManager :=
  refresh_file_list env { fm with show_hidden := !fm.show_hidden }

/-! ## Sequences of user actions -/

/-- The callbacks that reach the engine: `on_path_activate`, `on_places_clicked`,
`on_go_home` and `on_row_activated` all end in `navigate_to_path`. -/
inductive Action where
  | navigate (path : CStr)
  | go_up
  | refresh
  | toggle_hidden
deriving DecidableEq

/-- One callback, run against the snapshot of the system at that moment. -/
def step (env : Env) (fm : FileManager) : Action → FileManager
  | Action.navigate path => navigate_to_path env fm path
  | Action.go_up => on_go_up env fm
  | Action.refresh => on_refresh env fm
  | Action.toggle_hidden => on_toggle_hidden env fm

/-- A sequence of callbacks, each with its own snapshot of the system. Once the
process has faulted no callback runs any more. -/
def run (fm : FileManager) : List (Env × Action) → FileManager
  | [] => fm
  | (env, a) :: rest => if fm.crashed then fm else run (step env fm a) rest

/-! ## Notions of the specification -/

/-- The two resolution failures the specification names. -/
inductive ResolutionError where
  | NotFound
  | NotADirectory
deriving DecidableEq

/-- The segments of a path text between its `'/'` separators. -/
def split_slash : CStr → List CStr
  | [] => [[]]
  | c :: cs =>
    if c = '/' then [] :: split_slash cs
    else
      match split_slash cs with
      | [] => [[c]]
      | s :: ss => (c :: s) :: ss

/-- A segment allowed in a canonical path: not empty, not `.`, not `..`. -/
def good_segment (s : CStr) : Bool :=
  s != [] && s != ['.'] && s != ['.', '.']

/-- Canonical form of a path, as the specification words it: absolute, no empty
segment (hence no trailing `'/'`), no `.` or `..` segment; the root is `"/"`. -/
def canonical_form (p : CStr) : Bool :=
  match p with
  | '/' :: rest => rest == [] || (split_slash rest).all good_segment
  | _ => false

/-- The visibility filter as the specification words it: with `show_hidden`
false every entry whose name begins with `'.'` is removed, otherwise nothing
is. -/
def visibility_filter (entries : List Row) (show_hidden : Bool) : List Row :=
  if show_hidden then entries else entries.filter (fun r => !starts_with_dot r.name)

/-- The number of entries of a directory: the names other than `.` and `..`. -/
def total_count (names : List CStr) : Nat :=
  names.countP (fun n => decide (n ≠ ['.'] ∧ n ≠ ['.', '.']))

/-- The number of hidden entries: the entries whose name begins with `'.'`. -/
def hidden_count (names : List CStr) : Nat :=
  names.countP (fun n => decide (n ≠ ['.'] ∧ n ≠ ['.', '.'] ∧ n.head? = some '.'))

/-- The visible count of the status line: the total when `show_hidden` is true,
the total minus the hidden entries when it is false. -/
def visible_count (show_hidden : Bool) (names : List CStr) : Nat :=
  if show_hidden then total_count names else total_count names - hidden_count names

/-- An entry passes the hidden filter when it is not `.` or `..` and, with
`show_hidden` false, its name does not begin with `'.'`. -/
def passes_filter (show_hidden : Bool) (name : CStr) : Bool :=
  decide (name ≠ ['.'] ∧ name ≠ ['.', '.'] ∧ (show_hidden = false → name.head? ≠ some '.'))

/-! ## A small filesystem used for concrete evaluations -/

/-- A filesystem with a home directory `/home/u` (a file, a hidden file, a
dangling link and a link to `/home`), a directory `/ten` of ten entries, and a
directory `/locked` that exists but cannot be opened. -/
def demo_env : Env :=
  { path_max := 4096
    stat := fun p =>
      if p = "/".toList ∨ p = "/home".toList ∨ p = "/home/u".toList ∨ p = "/ten".toList
          ∨ p = "/locked".toList ∨ p = "/home/u/up".toList then
        some { is_dir := true, st_size := 4096, st_mtime := 0 }
      else if p = "/home/u/notes.txt".toList then
        some { is_dir := false, st_size := 1280, st_mtime := 60 }
      else if p = "/home/u/.profile".toList then
        some { is_dir := false, st_size := 807, st_mtime := 120 }
      else none
    realpath := fun p =>
      if p = "/".toList ∨ p = "/home".toList ∨ p = "/home/u".toList ∨ p = "/ten".toList
          ∨ p = "/locked".toList then some p
      else if p = "/home/u/up".toList then some "/home".toList
      else if p = "/home/u/notes.txt".toList ∨ p = "/home/u/.profile".toList then some p
      else none
    opendir := fun p =>
      if p = "/".toList then
        some [".".toList, "..".toList, "home".toList, "ten".toList, "locked".toList]
      else if p = "/home".toList then some [".".toList, "..".toList, "u".toList]
      else if p = "/home/u".toList then
        some [".".toList, "..".toList, "notes.txt".toList, ".profile".toList,
              "dangling".toList, "up".toList]
      else if p = "/ten".toList then
        some [".".toList, "..".toList, "a".toList, ".x".toList, "b".toList, "c".toList,
              ".y".toList, "d".toList, "e".toList, "f".toList, ".z".toList, "g".toList]
      else none
    strftime_local := fun t =>
      if t = 0 then some "1970-01-01 00:00".toList
      else if t = 60 then some "1970-01-01 00:01".toList
      else some "1970-01-01 00:02".toList }

/-- The state right after start-up in `/home/u`, before the first refresh. -/
def demo_fm : FileManager :=
  { store := []
    path_entry := "/home/u".toList
    statusbar := []
    current_path := "/home/u".toList
    show_hidden := false
    stderr := []
    crashed := false }

/-- A state showing `/ten`, whose current path is then pointed at `/locked`. -/
def stale_fm : FileManager :=
  { refresh_file_list demo_env { demo_fm with current_path := "/ten".toList } with
    current_path := "/locked".toList }

/-- A filesystem with one directory `/t` holding `a.txt`, `.late` and `z.txt`,
all regular files; the modification time of `.late` is `2 ^ 56` seconds, which
`localtime` cannot convert. -/
def fault_env : Env :=
  { path_max := 4096
    stat := fun p =>
      if p = "/t".toList then some { is_dir := true, st_size := 4096, st_mtime := 0 }
      else if p = "/t/a.txt".toList ∨ p = "/t/z.txt".toList then
        some { is_dir := false, st_size := 5, st_mtime := 60 }
      else if p = "/t/.late".toList then
        some { is_dir := false, st_size := 5, st_mtime := 72057594037927936 }
      else none
    realpath := fun p => if p = "/t".toList then some p else none
    opendir := fun p =>
      if p = "/t".toList then
        some [".".toList, "..".toList, "a.txt".toList, ".late".toList, "z.txt".toList]
      else none
    strftime_local := fun t =>
      if t < 72057594037927936 then some "1970-01-01 00:01".toList else none }

/-- A state in `/t`, hidden entries not shown, before any refresh. -/
def fault_fm : FileManager :=
  { store := []
    path_entry := "/t".toList
    statusbar := []
    current_path := "/t".toList
    show_hidden := false
    stderr := []
    crashed := false }

/-- A path segment of 256 characters: a `'/'` and a name of 255 characters. -/
def long_segment : CStr := '/' :: List.replicate 255 'd'

/-- The path made of `n` segments `long_segment`. -/
def long_segments : Nat → CStr
  | 0 => []
  | n + 1 => long_segment ++ long_segments n

/-- A canonical directory path of 4090 characters: fifteen names of 255
characters and one of 249. -/
def deep_dir : CStr := long_segments 15 ++ '/' :: List.replicate 249 'd'

/-- A filesystem where the directory `deep_dir` holds the regular file `abcd`
and an entry `abcdefgh` whose own path, 4099 characters long, is too long to
`stat`. -/
def deep_env : Env :=
  { path_max := 4096
    stat := fun p =>
      if p = deep_dir then some { is_dir := true, st_size := 4096, st_mtime := 0 }
      else if p = deep_dir ++ "/abcd".toList then
        some { is_dir := false, st_size := 5, st_mtime := 60 }
      else none
    realpath := fun p => if p = deep_dir then some p else none
    opendir := fun p =>
      if p = deep_dir then
        some [".".toList, "..".toList, "abcd".toList, "abcdefgh".toList]
      else none
    strftime_local := fun _ => some "1970-01-01 00:01".toList }

/-- A sequence of callbacks on the demo filesystem: up, toggle, a failed
navigation, refresh, a navigation through a link, up twice. -/
def demo_trace : List (Env × Action) :=
  [(demo_env, Action.go_up), (demo_env, Action.toggle_hidden),
   (demo_env, Action.navigate "/nonexistent/path".toList), (demo_env, Action.refresh),
   (demo_env, Action.navigate "/home/u".toList), (demo_env, Action.go_up),
   (demo_env, Action.go_up), (demo_env, Action.go_up)]

/-! ## Basic facts about the engine -/

theorem refresh_file_list_current_path (env : Env) (fm : FileManager) :
    (refresh_file_list env fm).current_path = fm.current_path := by
  cases h : env.opendir fm.current_path with
  | none => simp [refresh_file_list, h]
  | some names =>
    cases h2 : (list_rows env fm.current_path fm.show_hidden names).2 <;>
      simp [refresh_file_list, update_statusbar, h, h2]

theorem refresh_file_list_show_hidden (env : Env) (fm : FileManager) :
    (refresh_file_list env fm).show_hidden = fm.show_hidden := by
  cases h : env.opendir fm.current_path with
  | none => simp [refresh_file_list, h]
  | some names =>
    cases h2 : (list_rows env fm.current_path fm.show_hidden names).2 <;>
      simp [refresh_file_list, update_statusbar, h, h2]

theorem refresh_file_list_store (env : Env) (fm : FileManager) :
    (refresh_file_list env fm).store =
      match env.opendir fm.current_path with
      | none => []
      | some names => (list_rows env fm.current_path fm.show_hidden names).1 := by
  cases h : env.opendir fm.current_path with
  | none => simp [refresh_file_list, h]
  | some names =>
    cases h2 : (list_rows env fm.current_path fm.show_hidden names).2 <;>
      simp [refresh_file_list, update_statusbar, h, h2]

/-- A refresh faults exactly when the directory opens and the loop faults. -/
theorem refresh_file_list_crashed (env : Env) (fm : FileManager) :
    (refresh_file_list env fm).crashed =
      match env.opendir fm.current_path with
      | none => fm.crashed
      | some names => fm.crashed || (list_rows env fm.current_path fm.show_hidden names).2 := by
  cases h : env.opendir fm.current_path with
  | none => simp [refresh_file_list, h]
  | some names =>
    cases h2 : (list_rows env fm.current_path fm.show_hidden names).2 <;>
      simp [refresh_file_list, update_statusbar, h, h2]

theorem make_row_name (env : Env) (n : CStr) (st : Stat) (row : Row)
    (h : make_row env n st = some row) : row.name = n := by
  unfold make_row at h
  cases ht : env.strftime_local st.st_mtime with
  | none => simp [ht] at h
  | some t =>
    simp only [ht, Option.some.injEq] at h
    rw [← h]

/-- The loop faults exactly when it reaches an entry that passes the hidden
filter, whose `stat` succeeds and whose modification time `localtime` cannot
convert. -/
theorem list_rows_fault_iff (env : Env) (cur : CStr) (sh : Bool) (names : List CStr) :
    (list_rows env cur sh names).2 = true ↔
      ∃ n ∈ names, passes_filter sh n = true ∧
        ∃ st, env.stat (full_path env cur n) = some st
          ∧ env.strftime_local st.st_mtime = none := by
  induction names with
  | nil => simp [list_rows]
  | cons n rest ih =>
    have hpass : passes_filter sh n
        = (!is_dot_or_dotdot n && !(!sh && starts_with_dot n)) := by
      by_cases h1 : n = ['.'] <;> by_cases h2 : n = ['.', '.'] <;>
        by_cases h3 : n.head? = some '.' <;> cases sh <;>
        simp [passes_filter, is_dot_or_dotdot, starts_with_dot, h1, h2, h3]
    unfold list_rows
    by_cases h1 : is_dot_or_dotdot n = true
    · have hp : passes_filter sh n = false := by simp [hpass, h1]
      simp [h1, ih, hp]
    · by_cases h2 : (!sh && starts_with_dot n) = true
      · have hp : passes_filter sh n = false := by simp [hpass, h2]
        simp [h1, h2, ih, hp]
      · have hp : passes_filter sh n = true := by
          rw [hpass]
          simp only [Bool.not_eq_true] at h1 h2
          simp [h1, h2]
        cases hst : env.stat (full_path env cur n) with
        | none => simp [h1, h2, hst, ih]
        | some st =>
          cases ht : env.strftime_local st.st_mtime with
          | none => simp [h1, h2, hst, hp, make_row, ht]
          | some t => simp [h1, h2, hst, hp, make_row, ht, ih]

/-- The names of the rows built by a `readdir` loop that does not fault: the
names read, in order, that are not `.` or `..`, pass the hidden test and whose
`stat` (of the path the code builds) succeeds. -/
theorem list_rows_names (env : Env) (cur : CStr) (sh : Bool) (names : List CStr)
    (hok : (list_rows env cur sh names).2 = false) :
    (list_rows env cur sh names).1.map Row.name =
      names.filter (fun n => !is_dot_or_dotdot n && (sh || !starts_with_dot n)
        && (env.stat (full_path env cur n)).isSome) := by
  induction names with
  | nil => rfl
  | cons n rest ih =>
    unfold list_rows at hok ⊢
    by_cases h1 : is_dot_or_dotdot n = true
    · simp only [h1, if_true] at hok ⊢
      simp [h1, ih hok]
    · by_cases h2 : (!sh && starts_with_dot n) = true
      · have : (sh || !starts_with_dot n) = false := by
          cases sh <;> cases hs : starts_with_dot n <;> simp_all
        simp only [h1, h2, if_true, if_false] at hok ⊢
        simp [h1, this, ih hok]
      · have : (sh || !starts_with_dot n) = true := by
          cases sh <;> cases hs : starts_with_dot n <;> simp_all
        simp only [h1, h2, if_false] at hok ⊢
        cases hst : env.stat (full_path env cur n) with
        | none =>
          simp only [hst] at hok ⊢
          simp [h1, this, hst, ih hok]
        | some st =>
          cases hrow : make_row env n st with
          | none => simp [hst, hrow] at hok
          | some row =>
            simp only [hst, hrow] at hok ⊢
            simp [h1, this, hst, ih hok, make_row_name env n st row hrow]

/-- The path the code builds for a child is the child's own path when that fits
in the buffer. -/
theorem full_path_fits (env : Env) (dir name : CStr)
    (h : dir.length + 1 + name.length ≤ env.path_max - 1) :
    full_path env dir name = dir ++ '/' :: name := by
  unfold full_path
  apply List.take_of_length_le
  simp only [List.length_append, List.length_cons]
  omega

/-- The path the code builds for a child is cut where the buffer ends: a name
that runs past the end is read as its prefix. -/
theorem full_path_truncated (env : Env) (dir a b : CStr)
    (h : dir.length + 1 + a.length = env.path_max - 1) :
    full_path env dir (a ++ b) = dir ++ '/' :: a := by
  unfold full_path
  have e : dir ++ '/' :: (a ++ b) = (dir ++ '/' :: a) ++ b := by simp
  rw [e]
  apply List.take_left'
  simp only [List.length_append, List.length_cons]
  omega

/-! ## C1 -/

/-- C1: when the candidate does not resolve to a directory (`stat` fails, the
target is not a directory, or `realpath` fails), `navigate_to_path` returns the
state it was given: `current_path`, `show_hidden`, the rows of the store, the
path entry, the status bar and standard error are all as before, so no refresh
has taken place. -/
theorem navigate_to_path_failure_keeps_state (env : Env) (fm : FileManager) (path : CStr)
    (h : env.stat path = none
      ∨ (∃ st, env.stat path = some st ∧ st.is_dir = false)
      ∨ env.realpath path = none) :
    navigate_to_path env fm path = fm
    ∧ (navigate_to_path env fm path).current_path = fm.current_path
    ∧ (navigate_to_path env fm path).show_hidden = fm.show_hidden
    ∧ (navigate_to_path env fm path).store = fm.store
    ∧ (navigate_to_path env fm path).statusbar = fm.statusbar := by
  have key : navigate_to_path env fm path = fm := by
    unfold navigate_to_path
    rcases h with h | ⟨st, h, hd⟩ | h
    · simp [h]
    · simp [h, hd]
    · cases hs : env.stat path with
      | none => rfl
      | some st => cases hd : st.is_dir <;> simp [h]
  simp [key]

theorem navigate_to_path_failure_keeps_state_witness :
    demo_env.stat "/nonexistent/path".toList = none
    ∧ navigate_to_path demo_env stale_fm "/nonexistent/path".toList = stale_fm :=
  ⟨by decide,
   (navigate_to_path_failure_keeps_state demo_env stale_fm "/nonexistent/path".toList
      (Or.inl (by decide))).1⟩

/-! ## C2 -/

theorem long_segments_length (n : Nat) : (long_segments n).length = 256 * n := by
  induction n with
  | zero => rfl
  | succ k ih =>
    unfold long_segments long_segment
    rw [List.length_append, List.length_cons, List.length_replicate, ih]
    omega

theorem deep_dir_length : deep_dir.length = 4090 := by
  unfold deep_dir
  rw [List.length_append, List.length_cons, List.length_replicate, long_segments_length]

set_option maxRecDepth 100000 in
/-- C2, at two failing inputs. In the directory `deep_dir` (4090 characters)
the entry `abcdefgh` has a path of its own that `stat` refuses, yet the code
cuts the path it builds at `PATH_MAX - 1` characters, reads the `stat` of
`abcd` and lists `abcdefgh` with the size of `abcd`. In the directory `/t`,
shown with hidden entries, the loop reaches `.late`, whose modification time
`localtime` cannot convert, and faults: the store holds the row of `a.txt` and
an unset row, the entries `.late` and `z.txt` are not listed and the status bar
is not written. -/
theorem navigate_to_path_listing_defects :
    deep_env.stat deep_dir = some { is_dir := true, st_size := 4096, st_mtime := 0 }
    ∧ deep_env.realpath deep_dir = some deep_dir
    ∧ deep_env.stat (deep_dir ++ '/' :: "abcdefgh".toList) = none
    ∧ (navigate_to_path deep_env demo_fm deep_dir).current_path = deep_dir
    ∧ (navigate_to_path deep_env demo_fm deep_dir).store =
        [{ icon := "text-x-generic".toList, name := "abcd".toList, size := "5 B".toList,
           modified := "1970-01-01 00:01".toList },
         { icon := "text-x-generic".toList, name := "abcdefgh".toList, size := "5 B".toList,
           modified := "1970-01-01 00:01".toList }]
    ∧ fault_env.stat "/t".toList = some { is_dir := true, st_size := 4096, st_mtime := 0 }
    ∧ fault_env.stat "/t/z.txt".toList = some { is_dir := false, st_size := 5, st_mtime := 60 }
    ∧ (navigate_to_path fault_env { fault_fm with show_hidden := true } "/t".toList).crashed
        = true
    ∧ (navigate_to_path fault_env { fault_fm with show_hidden := true } "/t".toList).store =
        [{ icon := "text-x-generic".toList, name := "a.txt".toList, size := "5 B".toList,
           modified := "1970-01-01 00:01".toList },
         unset_row]
    ∧ (navigate_to_path fault_env { fault_fm with show_hidden := true } "/t".toList).statusbar
        = [] := by
  have hs1 : deep_env.stat deep_dir
      = some { is_dir := true, st_size := 4096, st_mtime := 0 } := by
    simp [deep_env]
  have hr1 : deep_env.realpath deep_dir = some deep_dir := by
    simp [deep_env]
  have ho1 : deep_env.opendir deep_dir
      = some [['.'], ['.', '.'], ['a', 'b', 'c', 'd'],
          ['a', 'b', 'c', 'd', 'e', 'f', 'g', 'h']] := by
    simp [deep_env]
  have hs2 : deep_env.stat (deep_dir ++ ['/', 'a', 'b', 'c', 'd'])
      = some { is_dir := false, st_size := 5, st_mtime := 60 } := by
    simp [deep_env]
  have hs3 : deep_env.stat (deep_dir ++ '/' :: "abcdefgh".toList) = none := by
    simp [deep_env]
  have hfit : full_path deep_env deep_dir ['a', 'b', 'c', 'd']
      = deep_dir ++ ['/', 'a', 'b', 'c', 'd'] :=
    full_path_fits deep_env deep_dir ['a', 'b', 'c', 'd'] (by simp [deep_dir_length, deep_env])
  have htr : full_path deep_env deep_dir ['a', 'b', 'c', 'd', 'e', 'f', 'g', 'h']
      = deep_dir ++ ['/', 'a', 'b', 'c', 'd'] :=
    full_path_truncated deep_env deep_dir ['a', 'b', 'c', 'd'] ['e', 'f', 'g', 'h']
      (by simp [deep_dir_length, deep_env])
  have hfs : format_size 5 = ['5', ' ', 'B'] := by decide
  have hnav : navigate_to_path deep_env demo_fm deep_dir =
      refresh_file_list deep_env
        { demo_fm with current_path := deep_dir, path_entry := deep_dir } := by
    simp [navigate_to_path, hs1, hr1]
  refine ⟨hs1, hr1, hs3, ?_, ?_, by decide, by decide, by decide, by decide, by decide⟩
  · rw [hnav, refresh_file_list_current_path]
  · rw [hnav, refresh_file_list_store]
    simp only [ho1]
    have hsh : demo_fm.show_hidden = false := rfl
    rw [hsh]
    simp [list_rows, is_dot_or_dotdot, starts_with_dot, hfit, htr, hs2, make_row, hfs]
    simp [deep_env]

/-! ## C3 -/

/-- C3, as stated, fails: `navigate_to_path` returns nothing but the state, and
on the demo filesystem the outcome for a candidate that does not exist and the
outcome for a regular file are the same state, so no report computed from the
outcome tells `NotFound` from `NotADirectory`. -/
theorem navigate_to_path_no_error_report :
    demo_env.stat "/nonexistent/path".toList = none
    ∧ demo_env.stat "/home/u/notes.txt".toList
        = some { is_dir := false, st_size := 1280, st_mtime := 60 }
    ∧ navigate_to_path demo_env demo_fm "/nonexistent/path".toList
        = navigate_to_path demo_env demo_fm "/home/u/notes.txt".toList
    ∧ ¬ ∃ report : FileManager → Option ResolutionError,
        report (navigate_to_path demo_env demo_fm "/nonexistent/path".toList)
            = some ResolutionError.NotFound
        ∧ report (navigate_to_path demo_env demo_fm "/home/u/notes.txt".toList)
            = some ResolutionError.NotADirectory := by
  have h1 : demo_env.stat "/nonexistent/path".toList = none := by decide
  have h2 : demo_env.stat "/home/u/notes.txt".toList
      = some { is_dir := false, st_size := 1280, st_mtime := 60 } := by decide
  have e1 : navigate_to_path demo_env demo_fm "/nonexistent/path".toList = demo_fm := by
    unfold navigate_to_path
    rw [h1]
  have e2 : navigate_to_path demo_env demo_fm "/home/u/notes.txt".toList = demo_fm := by
    unfold navigate_to_path
    rw [h2]
    rfl
  refine ⟨h1, h2, e1.trans e2.symm, ?_⟩
  rintro ⟨report, r1, r2⟩
  rw [e1] at r1
  rw [e2, r1] at r2
  cases r2

/-- C3 (amended): `navigate_to_path` reports nothing to its caller. Whether the
candidate does not exist or exists without being a directory, the call returns
the state it was given, the same in both cases; when the candidate is a
directory with a `realpath`, the call adopts that path. -/
theorem navigate_to_path_failures_alike (env : Env) (fm : FileManager)
    (missing other : CStr) (st : Stat)
    (hmissing : env.stat missing = none)
    (hother : env.stat other = some st) (hnotdir : st.is_dir = false) :
    navigate_to_path env fm missing = fm
    ∧ navigate_to_path env fm other = fm
    ∧ navigate_to_path env fm missing = navigate_to_path env fm other
    ∧ (∀ (good resolved : CStr) (sd : Stat), env.stat good = some sd → sd.is_dir = true →
        env.realpath good = some resolved →
        (navigate_to_path env fm good).current_path = resolved) := by
  have e1 : navigate_to_path env fm missing = fm := by simp [navigate_to_path, hmissing]
  have e2 : navigate_to_path env fm other = fm := by
    simp [navigate_to_path, hother, hnotdir]
  refine ⟨e1, e2, e1.trans e2.symm, ?_⟩
  intro good resolved sd hs hd hr
  simp [navigate_to_path, hs, hd, hr, refresh_file_list_current_path]

theorem navigate_to_path_failures_alike_witness :
    navigate_to_path demo_env demo_fm "/nonexistent/path".toList = demo_fm
    ∧ navigate_to_path demo_env demo_fm "/home/u/notes.txt".toList = demo_fm :=
  have h := navigate_to_path_failures_alike demo_env demo_fm "/nonexistent/path".toList
    "/home/u/notes.txt".toList { is_dir := false, st_size := 1280, st_mtime := 60 }
    (by decide) (by decide) rfl
  ⟨h.1, h.2.1⟩

/-! ## C4 -/

theorem strrchr_none_of_not_mem (c : Char) (s : CStr) (h : c ∉ s) : strrchr c s = none := by
  induction s with
  | nil => rfl
  | cons x xs ih =>
    have hx : ¬ x = c := fun e => h (by simp [e])
    have hxs : c ∉ xs := fun m => h (List.mem_cons_of_mem _ m)
    simp [strrchr, ih hxs, hx]

theorem strrchr_append (c : Char) (pre suf : CStr) (h : c ∉ suf) :
    strrchr c (pre ++ c :: suf) = some pre.length := by
  induction pre with
  | nil => simp [strrchr, strrchr_none_of_not_mem c suf h]
  | cons x xs ih => simp [strrchr, ih]

theorem parent_path_append (pre suf : CStr) (h : '/' ∉ suf) :
    parent_path (pre ++ '/' :: suf) = if pre = [] then ['/'] else pre := by
  unfold parent_path
  rw [strrchr_append '/' pre suf h]
  cases pre with
  | nil => rfl
  | cons x xs =>
    simp

theorem exists_last_slash (p : CStr) (h : '/' ∈ p) :
    ∃ pre suf, p = pre ++ '/' :: suf ∧ '/' ∉ suf := by
  induction p with
  | nil => cases h
  | cons x xs ih =>
    by_cases hxs : '/' ∈ xs
    · obtain ⟨pre, suf, e, hs⟩ := ih hxs
      exact ⟨x :: pre, suf, by simp [e], hs⟩
    · have hx : x = '/' := by
        rcases List.mem_cons.mp h with e | m
        · exact e.symm
        · exact absurd m hxs
      exact ⟨[], xs, by simp [hx], hxs⟩

/-- C4: `on_go_up` computes the lexical parent. At `"/"` it returns the state
unchanged, any number of times. At any other path, written as `pre`, the last
`'/'`, and a rest without `'/'`, the new `current_path` is `pre`, or `"/"` when
`pre` is empty (the last `'/'` is the first character); every absolute path
can be written so. `"/a/b"` becomes `"/a"` and `"/a"` becomes `"/"`. -/
theorem on_go_up_lexical_parent (env : Env) (fm : FileManager) :
    (fm.current_path = ['/'] →
      on_go_up env fm = fm ∧ ∀ n : Nat, Nat.iterate (on_go_up env) n fm = fm)
    ∧ (∀ pre suf : CStr, fm.current_path = pre ++ '/' :: suf → '/' ∉ suf →
        fm.current_path ≠ ['/'] →
        (on_go_up env fm).current_path = if pre = [] then ['/'] else pre)
    ∧ (fm.current_path.head? = some '/' →
        ∃ pre suf : CStr, fm.current_path = pre ++ '/' :: suf ∧ '/' ∉ suf)
    ∧ (fm.current_path = "/a/b".toList → (on_go_up env fm).current_path = "/a".toList)
    ∧ (fm.current_path = "/a".toList → (on_go_up env fm).current_path = "/".toList) := by
  have general : ∀ pre suf : CStr, fm.current_path = pre ++ '/' :: suf → '/' ∉ suf →
      fm.current_path ≠ ['/'] →
      (on_go_up env fm).current_path = if pre = [] then ['/'] else pre := by
    intro pre suf hp hs hne
    unfold on_go_up
    rw [if_pos hne, refresh_file_list_current_path]
    show parent_path fm.current_path = _
    rw [hp, parent_path_append pre suf hs]
  refine ⟨?_, general, ?_, ?_, ?_⟩
  · intro h
    have hfix : on_go_up env fm = fm := by
      unfold on_go_up
      rw [if_neg (not_not.mpr h)]
    exact ⟨hfix, fun n => Function.iterate_fixed hfix n⟩
  · intro h
    apply exists_last_slash
    cases hp : fm.current_path with
    | nil => rw [hp] at h; cases h
    | cons x xs =>
      rw [hp] at h
      simp at h
      simp [h]
  · intro h
    have := general "/a".toList "b".toList (by rw [h]; rfl) (by decide) (by rw [h]; decide)
    simpa using this
  · intro h
    have := general [] "a".toList (by rw [h]; rfl) (by decide) (by rw [h]; decide)
    simpa using this

theorem on_go_up_lexical_parent_witness :
    (on_go_up demo_env demo_fm).current_path = "/home".toList
    ∧ on_go_up demo_env { demo_fm with current_path := "/".toList }
        = { demo_fm with current_path := "/".toList } :=
  ⟨((on_go_up_lexical_parent demo_env demo_fm).2.1 "/home".toList "u".toList
      rfl (by decide) (by decide)).trans (by decide),
   ((on_go_up_lexical_parent demo_env { demo_fm with current_path := "/".toList }).1 rfl).1⟩

/-! ## C5 -/

/-- When the current directory cannot be opened, `refresh_file_list` clears the
store, writes one line to standard error and returns: nothing else changes, the
status bar included. -/
theorem refresh_file_list_unreadable (env : Env) (fm : FileManager)
    (h : env.opendir fm.current_path = none) :
    refresh_file_list env fm =
      { fm with store := [], stderr := fm.stderr ++ ["opendir".toList] } := by
  simp [refresh_file_list, h]

/-- When the current directory can be opened and the loop does not fault,
`refresh_file_list` replaces the top message of the status bar by the text
computed from a second scan. -/
theorem refresh_file_list_readable_status (env : Env) (fm : FileManager) (names : List CStr)
    (h : env.opendir fm.current_path = some names)
    (hok : (list_rows env fm.current_path fm.show_hidden names).2 = false) :
    (refresh_file_list env fm).statusbar =
      status_text fm.show_hidden (count_entries names (0, 0)).1 (count_entries names (0, 0)).2
        :: fm.statusbar.tail := by
  simp [refresh_file_list, update_statusbar, h, hok]

set_option maxRecDepth 100000 in
/-- C5, at the failing input: the state shows the ten entries of `/ten` and its
current path is `/locked`, which cannot be opened. `refresh_file_list` empties
the listing and keeps `current_path`, but the status bar still reads
`7 items (3 hidden)`; `update_statusbar`, had it been called, would have
written `0 items (0 hidden)`. -/
theorem refresh_file_list_unreadable_stale_status :
    demo_env.opendir stale_fm.current_path = none
    ∧ stale_fm.statusbar = ["7 items (3 hidden)".toList]
    ∧ (refresh_file_list demo_env stale_fm).store = []
    ∧ (refresh_file_list demo_env stale_fm).current_path = stale_fm.current_path
    ∧ (refresh_file_list demo_env stale_fm).statusbar = ["7 items (3 hidden)".toList]
    ∧ (update_statusbar demo_env { stale_fm with store := [] }).statusbar
        = ["0 items (0 hidden)".toList] := by
  decide

/-! ## C6 -/

theorem wrap_int_of_range (x : Int) (h0 : 0 ≤ x) (h1 : x < 2 ^ 31) : wrap_int x = x := by
  unfold wrap_int
  omega

theorem fmt_d_natCast (n : Nat) : fmt_d (n : Int) = (Nat.repr n).toList := by
  unfold fmt_d
  rw [if_neg (by omega)]
  rfl

/-- The loop of `update_statusbar` counts, from counters within the `int`
range, the names other than `.` and `..` and among them those beginning with
`'.'`. -/
theorem count_entries_eq (names : List CStr) (t h : Nat) (hht : h ≤ t)
    (hlen : t + names.length < 2 ^ 31) :
    count_entries names ((t : Int), (h : Int)) =
      (((t + names.countP (fun n => decide (n ≠ ['.'] ∧ n ≠ ['.', '.'])) : Nat) : Int),
       ((h + names.countP
          (fun n => decide (n ≠ ['.'] ∧ n ≠ ['.', '.'] ∧ n.head? = some '.')) : Nat) : Int)) := by
  induction names generalizing t h with
  | nil => simp [count_entries]
  | cons n rest ih =>
    simp only [List.length_cons] at hlen
    unfold count_entries
    by_cases hd : is_dot_or_dotdot n = true
    · have hd' : ¬ (n ≠ ['.'] ∧ n ≠ ['.', '.']) := by
        simp [is_dot_or_dotdot] at hd
        tauto
      have hd'' : ¬ (n ≠ ['.'] ∧ n ≠ ['.', '.'] ∧ n.head? = some '.') := by tauto
      rw [if_pos hd, ih t h hht (by omega)]
      simp [List.countP_cons, hd', hd'']
    · have hd' : n ≠ ['.'] ∧ n ≠ ['.', '.'] := by
        simp [is_dot_or_dotdot] at hd
        tauto
      rw [if_neg hd]
      have ht : wrap_int ((t : Int) + 1) = ((t + 1 : Nat) : Int) := by
        rw [wrap_int_of_range] <;> push_cast <;> omega
      by_cases hs : starts_with_dot n = true
      · have hs' : n.head? = some '.' := by simpa [starts_with_dot] using hs
        have hh : wrap_int ((h : Int) + 1) = ((h + 1 : Nat) : Int) := by
          rw [wrap_int_of_range] <;> push_cast <;> omega
        rw [if_pos hs, ht, hh, ih (t + 1) (h + 1) (by omega) (by omega)]
        simp [List.countP_cons, hd', hs']
        omega
      · have hs' : ¬ n.head? = some '.' := by simpa [starts_with_dot] using hs
        rw [if_neg hs, ht, ih (t + 1) h (by omega) (by omega)]
        simp [List.countP_cons, hd', hs']
        omega

set_option maxRecDepth 100000 in
/-- C6: for every sequence of entry names read from the current directory (its
length within the range of the C `int` counters), `update_statusbar` counts
`total` = the names other than `.` and `..` and `hidden` = those of them that
begin with `'.'`, whatever `show_hidden` is, and writes `{total} items` when
`show_hidden` is true and `{total-hidden} items ({hidden} hidden)` when it is
false. On the directory `/ten` (ten entries, three hidden) the texts are
`10 items` and `7 items (3 hidden)`. -/
theorem update_statusbar_counts (env : Env) (fm : FileManager) (names : List CStr)
    (hod : env.opendir fm.current_path = some names) (hlen : names.length < 2 ^ 31) :
    count_entries names (0, 0) =
      (((names.countP (fun n => decide (n ≠ ['.'] ∧ n ≠ ['.', '.'])) : Nat) : Int),
       ((names.countP
          (fun n => decide (n ≠ ['.'] ∧ n ≠ ['.', '.'] ∧ n.head? = some '.')) : Nat) : Int))
    ∧ (fm.show_hidden = true →
        (update_statusbar env fm).statusbar.head? = some
          ((Nat.repr (names.countP (fun n => decide (n ≠ ['.'] ∧ n ≠ ['.', '.'])))).toList
            ++ " items".toList))
    ∧ (fm.show_hidden = false →
        (update_statusbar env fm).statusbar.head? = some
          ((Nat.repr (names.countP (fun n => decide (n ≠ ['.'] ∧ n ≠ ['.', '.']))
              - names.countP
                  (fun n => decide (n ≠ ['.'] ∧ n ≠ ['.', '.'] ∧ n.head? = some '.')))).toList
            ++ " items (".toList
            ++ (Nat.repr (names.countP
                  (fun n => decide (n ≠ ['.'] ∧ n ≠ ['.', '.'] ∧ n.head? = some '.')))).toList
            ++ " hidden)".toList))
    ∧ (update_statusbar demo_env
          { demo_fm with current_path := "/ten".toList, show_hidden := true }).statusbar.head?
        = some "10 items".toList
    ∧ (update_statusbar demo_env
          { demo_fm with current_path := "/ten".toList, show_hidden := false }).statusbar.head?
        = some "7 items (3 hidden)".toList := by
  have hc := count_entries_eq names 0 0 (le_refl 0) (by omega)
  simp only [Nat.zero_add, Nat.cast_zero] at hc
  have hle : names.countP
      (fun n => decide (n ≠ ['.'] ∧ n ≠ ['.', '.'] ∧ n.head? = some '.'))
      ≤ names.countP (fun n => decide (n ≠ ['.'] ∧ n ≠ ['.', '.'])) := by
    apply List.countP_mono_left
    intro n _ hn
    simp only [decide_eq_true_eq] at hn ⊢
    exact ⟨hn.1, hn.2.1⟩
  have htot : names.countP (fun n => decide (n ≠ ['.'] ∧ n ≠ ['.', '.'])) ≤ names.length :=
    List.countP_le_length _
  refine ⟨hc, ?_, ?_, by decide, by decide⟩
  · intro hsh
    simp only [update_statusbar, hod, hc, status_text, hsh, if_true, List.head?_cons,
      fmt_d_natCast]
  · intro hsh
    have hsub : wrap_int
        (((names.countP (fun n => decide (n ≠ ['.'] ∧ n ≠ ['.', '.'])) : Nat) : Int)
          - ((names.countP
              (fun n => decide (n ≠ ['.'] ∧ n ≠ ['.', '.'] ∧ n.head? = some '.')) : Nat) : Int))
        = ((names.countP (fun n => decide (n ≠ ['.'] ∧ n ≠ ['.', '.']))
            - names.countP
              (fun n => decide (n ≠ ['.'] ∧ n ≠ ['.', '.'] ∧ n.head? = some '.') ) : Nat)
            : Int) := by
      rw [wrap_int_of_range] <;> omega
    simp only [update_statusbar, hod, hc, status_text, hsh, hsub, List.head?_cons,
      fmt_d_natCast, Bool.false_eq_true, if_false]

theorem update_statusbar_counts_witness :
    (update_statusbar demo_env demo_fm).statusbar.head? = some "3 items (1 hidden)".toList :=
  ((update_statusbar_counts demo_env demo_fm
      [".".toList, "..".toList, "notes.txt".toList, ".profile".toList,
        "dangling".toList, "up".toList]
      (by decide) (by decide)).2.2.1 rfl).trans (by decide)

/-! ## C7 -/

/-- The number of tenths chosen by `tenths` is a nearest one: twice the distance
between `10 * num` and `den * tenths` is at most `den`. -/
theorem tenths_near (num den : Nat) (hden : 0 < den) :
    2 * (num * 10) ≤ 2 * (den * tenths num den) + den
    ∧ 2 * (den * tenths num den) ≤ 2 * (num * 10) + den := by
  have hm := Nat.div_add_mod (num * 10) den
  have hr := Nat.mod_lt (num * 10) hden
  unfold tenths
  generalize num * 10 / den = q at hm ⊢
  generalize num * 10 % den = r at hm hr ⊢
  simp only []
  split_ifs <;> (try simp only [Nat.mul_add, Nat.mul_one]) <;> omega

/-- The value printed by `%.1f` is within one twentieth of the exact quotient. -/
theorem tenths_abs (num den : Nat) (hden : 0 < den) :
    |(num : ℚ) / (den : ℚ) - (tenths num den : ℚ) / 10| ≤ 1 / 20 := by
  obtain ⟨h1, h2⟩ := tenths_near num den hden
  have h1q : (2 : ℚ) * ((num : ℚ) * 10) ≤ 2 * ((den : ℚ) * (tenths num den : ℚ)) + den := by
    exact_mod_cast h1
  have h2q : (2 : ℚ) * ((den : ℚ) * (tenths num den : ℚ)) ≤ 2 * ((num : ℚ) * 10) + den := by
    exact_mod_cast h2
  have hd : (0 : ℚ) < den := by exact_mod_cast hden
  rw [abs_le]
  constructor
  · have e : (num : ℚ) / den - (tenths num den : ℚ) / 10 + 1 / 20
        = (2 * ((num : ℚ) * 10) + den - 2 * ((den : ℚ) * (tenths num den : ℚ))) / (20 * den) := by
      field_simp
      ring
    have : 0 ≤ (num : ℚ) / den - (tenths num den : ℚ) / 10 + 1 / 20 := by
      rw [e]
      exact div_nonneg (by linarith) (by positivity)
    linarith
  · have e : 1 / 20 - ((num : ℚ) / den - (tenths num den : ℚ) / 10)
        = (2 * ((den : ℚ) * (tenths num den : ℚ)) + den - 2 * ((num : ℚ) * 10)) / (20 * den) := by
      field_simp
      ring
    have : 0 ≤ 1 / 20 - ((num : ℚ) / den - (tenths num den : ℚ) / 10) := by
      rw [e]
      exact div_nonneg (by linarith) (by positivity)
    linarith

theorem to_double_exact (n : Nat) (h : n < 2 ^ 53) : to_double n = n := by
  unfold to_double
  rw [if_pos h]

/-- C7: for a size `n` below `2 ^ 53`, `format_size` prints the decimal integer
and `" B"` when `n < 1024`; otherwise a number with one decimal, nearest to
`n / 1024` and followed by `" KB"` when `n < 1024 ^ 2`, nearest to
`n / 1024 ^ 2` and followed by `" MB"` when `n < 1024 ^ 3`, nearest to
`n / 1024 ^ 3` and followed by `" GB"` beyond. `0`, `1023`, `1024`, `1048576`
and `1073741824` give `0 B`, `1023 B`, `1.0 KB`, `1.0 MB` and `1.0 GB`. -/
theorem format_size_breakpoints (n : Nat) (hn : n < 2 ^ 53) :
    (n < 1024 → format_size (n : Int) = (Nat.repr n).toList ++ " B".toList)
    ∧ (1024 ≤ n → n < 1024 ^ 2 → ∃ t : Nat,
        format_size (n : Int)
          = (Nat.repr (t / 10)).toList ++ ['.', Nat.digitChar (t % 10)] ++ " KB".toList
        ∧ |(n : ℚ) / 1024 - (t : ℚ) / 10| ≤ 1 / 20)
    ∧ (1024 ^ 2 ≤ n → n < 1024 ^ 3 → ∃ t : Nat,
        format_size (n : Int)
          = (Nat.repr (t / 10)).toList ++ ['.', Nat.digitChar (t % 10)] ++ " MB".toList
        ∧ |(n : ℚ) / 1024 ^ 2 - (t : ℚ) / 10| ≤ 1 / 20)
    ∧ (1024 ^ 3 ≤ n → ∃ t : Nat,
        format_size (n : Int)
          = (Nat.repr (t / 10)).toList ++ ['.', Nat.digitChar (t % 10)] ++ " GB".toList
        ∧ |(n : ℚ) / 1024 ^ 3 - (t : ℚ) / 10| ≤ 1 / 20)
    ∧ format_size 0 = "0 B".toList
    ∧ format_size 1023 = "1023 B".toList
    ∧ format_size 1024 = "1.0 KB".toList
    ∧ format_size 1048576 = "1.0 MB".toList
    ∧ format_size 1073741824 = "1.0 GB".toList := by
  have hd := to_double_exact n hn
  refine ⟨?_, ?_, ?_, ?_, by decide, by decide, by decide, by decide, by decide⟩
  · intro h
    unfold format_size
    rw [if_pos (by omega), fmt_d_natCast]
  · intro h1 h2
    refine ⟨tenths n 1024, ?_, ?_⟩
    · unfold format_size
      rw [if_neg (by omega), if_pos (by omega), Int.toNat_natCast, hd]
      rfl
    · have := tenths_abs n 1024 (by norm_num)
      simpa using this
  · intro h1 h2
    refine ⟨tenths n (1024 * 1024), ?_, ?_⟩
    · unfold format_size
      rw [if_neg (by omega), if_neg (by omega), if_pos (by omega), Int.toNat_natCast, hd]
      rfl
    · have := tenths_abs n (1024 * 1024) (by norm_num)
      norm_num at this ⊢
      exact this
  · intro h1
    refine ⟨tenths n (1024 * 1024 * 1024), ?_, ?_⟩
    · unfold format_size
      rw [if_neg (by omega), if_neg (by omega), if_neg (by omega), Int.toNat_natCast, hd]
      rfl
    · have := tenths_abs n (1024 * 1024 * 1024) (by norm_num)
      norm_num at this ⊢
      exact this

theorem format_size_breakpoints_witness :
    format_size 1280 = "1.2 KB".toList
    ∧ ∃ t : Nat,
        format_size ((1536 : Nat) : Int)
          = (Nat.repr (t / 10)).toList ++ ['.', Nat.digitChar (t % 10)] ++ " KB".toList
        ∧ |((1536 : Nat) : ℚ) / 1024 - (t : ℚ) / 10| ≤ 1 / 20 :=
  ⟨by decide, (format_size_breakpoints 1536 (by norm_num)).2.1 (by norm_num) (by norm_num)⟩

/-! ## C8 -/

/-- When the first of two toggles does not fault, the second one runs, the flag
is back, the path is as before and, on the same filesystem, the listing is the
one a refresh of the original state builds. -/
theorem on_toggle_hidden_twice_of_no_fault (env env' : Env) (fm : FileManager)
    (h0 : fm.crashed = false) (h1 : (on_toggle_hidden env fm).crashed = false) :
    run fm [(env, Action.toggle_hidden), (env', Action.toggle_hidden)]
      = on_toggle_hidden env' (on_toggle_hidden env fm)
    ∧ (on_toggle_hidden env' (on_toggle_hidden env fm)).show_hidden = fm.show_hidden
    ∧ (on_toggle_hidden env' (on_toggle_hidden env fm)).current_path = fm.current_path
    ∧ (on_toggle_hidden env (on_toggle_hidden env fm)).store
        = (refresh_file_list env fm).store := by
  refine ⟨?_, ?_, ?_, ?_⟩
  · simp [run, step, h0, h1]
  · simp only [on_toggle_hidden, refresh_file_list_show_hidden, Bool.not_not]
  · simp only [on_toggle_hidden, refresh_file_list_current_path]
  · simp only [on_toggle_hidden, refresh_file_list_store, refresh_file_list_show_hidden,
      refresh_file_list_current_path, Bool.not_not]

set_option maxRecDepth 100000 in
/-- C8, at the failing input: in `/t` with hidden entries not shown, the first
`on_toggle_hidden` sets the flag and its refresh faults at `.late`, whose
modification time `localtime` cannot convert. The second call never runs: the
flag stays flipped and the store holds the row of `a.txt` and an unset row,
not the listing `a.txt`, `z.txt` that the original state produces. -/
theorem on_toggle_hidden_fault :
    fault_fm.show_hidden = false
    ∧ fault_fm.crashed = false
    ∧ (refresh_file_list fault_env fault_fm).crashed = false
    ∧ (refresh_file_list fault_env fault_fm).store.map Row.name
        = ["a.txt".toList, "z.txt".toList]
    ∧ (on_toggle_hidden fault_env fault_fm).crashed = true
    ∧ run fault_fm [(fault_env, Action.toggle_hidden), (fault_env, Action.toggle_hidden)]
        = on_toggle_hidden fault_env fault_fm
    ∧ (run fault_fm
        [(fault_env, Action.toggle_hidden), (fault_env, Action.toggle_hidden)]).show_hidden
        = true
    ∧ (run fault_fm
        [(fault_env, Action.toggle_hidden), (fault_env, Action.toggle_hidden)]).store
        = [{ icon := "text-x-generic".toList, name := "a.txt".toList, size := "5 B".toList,
             modified := "1970-01-01 00:01".toList },
           unset_row] := by
  decide

/-! ## C9 -/

/-- When the loop with `show_hidden` true does not fault, the loop with
`show_hidden` false does not either and builds the same rows less those whose
name begins with `'.'`, in the same order. -/
theorem list_rows_false_eq_filter (env : Env) (cur : CStr) (names : List CStr)
    (hok : (list_rows env cur true names).2 = false) :
    (list_rows env cur false names).2 = false
    ∧ (list_rows env cur false names).1
      = (list_rows env cur true names).1.filter (fun r => !starts_with_dot r.name) := by
  induction names with
  | nil => exact ⟨rfl, rfl⟩
  | cons n rest ih =>
    unfold list_rows at hok ⊢
    by_cases h1 : is_dot_or_dotdot n = true
    · simp only [h1, if_true] at hok ⊢
      exact ih hok
    · simp only [h1, Bool.not_true, Bool.false_and, Bool.not_false, Bool.true_and,
        if_false] at hok ⊢
      cases hst : env.stat (full_path env cur n) with
      | none =>
        simp only [hst] at hok
        cases hs : starts_with_dot n <;> simp [hst, ih hok]
      | some st =>
        cases hrow : make_row env n st with
        | none => simp [hst, hrow] at hok
        | some row =>
          simp only [hst, hrow] at hok
          have hname := make_row_name env n st row hrow
          cases hs : starts_with_dot n <;> simp [hst, hrow, ih hok, hname, hs]

set_option maxRecDepth 100000 in
/-- C9, at the failing input: `/t` holds the statable file `.late`, whose
modification time `localtime` cannot convert. With `show_hidden` false the
listing is `a.txt`, `z.txt`. With `show_hidden` true the refresh faults at
`.late`: the store holds the row of `a.txt` and an unset row, `.late` and
`z.txt` are not in it, and the first listing is not its filter. -/
theorem refresh_file_list_visibility_fault :
    fault_env.stat (full_path fault_env fault_fm.current_path ".late".toList)
      = some { is_dir := false, st_size := 5, st_mtime := 72057594037927936 }
    ∧ (refresh_file_list fault_env { fault_fm with show_hidden := false }).crashed = false
    ∧ (refresh_file_list fault_env { fault_fm with show_hidden := false }).store.map Row.name
        = ["a.txt".toList, "z.txt".toList]
    ∧ (refresh_file_list fault_env { fault_fm with show_hidden := true }).crashed = true
    ∧ (refresh_file_list fault_env { fault_fm with show_hidden := true }).store
        = [{ icon := "text-x-generic".toList, name := "a.txt".toList, size := "5 B".toList,
             modified := "1970-01-01 00:01".toList },
           unset_row]
    ∧ ".late".toList ∉
        (refresh_file_list fault_env { fault_fm with show_hidden := true }).store.map Row.name
    ∧ (refresh_file_list fault_env { fault_fm with show_hidden := false }).store
        ≠ visibility_filter
            (refresh_file_list fault_env { fault_fm with show_hidden := true }).store false := by
  decide

/-! ## C10 -/

theorem split_slash_ne_nil (s : CStr) : split_slash s ≠ [] := by
  cases s with
  | nil => simp [split_slash]
  | cons c cs =>
    unfold split_slash
    by_cases hc : c = '/'
    · simp [hc]
    · rw [if_neg hc]
      cases split_slash cs <;> simp

theorem split_slash_append (a b : CStr) :
    split_slash (a ++ '/' :: b) = split_slash a ++ split_slash b := by
  induction a with
  | nil => simp [split_slash]
  | cons c cs ih =>
    by_cases hc : c = '/'
    · simp [split_slash, hc, ih]
    · have hne := split_slash_ne_nil cs
      cases hcs : split_slash cs with
      | nil => exact absurd hcs hne
      | cons s ss => simp [split_slash, hc, ih, hcs]

/-- The lexical parent of a canonical path other than the root is canonical. -/
theorem canonical_form_parent_path (p : CStr) (hc : canonical_form p = true)
    (hne : p ≠ ['/']) : canonical_form (parent_path p) = true := by
  cases p with
  | nil => simp [canonical_form] at hc
  | cons x rest =>
    by_cases hx : x = '/'
    · subst hx
      have hrest : rest ≠ [] := fun e => hne (by rw [e])
      have hall : (split_slash rest).all good_segment = true := by
        simpa [canonical_form, hrest] using hc
      obtain ⟨pre, suf, hp, hs⟩ := exists_last_slash ('/' :: rest) (by simp)
      rw [hp, parent_path_append pre suf hs]
      cases pre with
      | nil => simp [canonical_form]
      | cons y pre' =>
        simp only [List.cons_append, List.cons.injEq] at hp
        obtain ⟨hy, hrest'⟩ := hp
        subst hy
        rw [hrest', split_slash_append, List.all_append, Bool.and_eq_true] at hall
        simp [canonical_form, hall.1]
    · exfalso
      unfold canonical_form at hc
      split at hc
      · rename_i heq
        exact hx (List.cons.inj heq).1
      · cases hc

theorem navigate_to_path_current_path (env : Env) (fm : FileManager) (path : CStr) :
    (navigate_to_path env fm path).current_path = fm.current_path
    ∨ env.realpath path = some (navigate_to_path env fm path).current_path := by
  unfold navigate_to_path
  cases hs : env.stat path with
  | none => exact Or.inl rfl
  | some st =>
    cases hd : st.is_dir with
    | false => exact Or.inl (by simp [hd])
    | true =>
      cases hr : env.realpath path with
      | none => exact Or.inl (by simp [hd])
      | some r => exact Or.inr (by simp [hd, refresh_file_list_current_path])

/-- Every callback keeps `current_path` canonical when `realpath` returns
canonical paths. -/
theorem step_canonical (env : Env) (fm : FileManager) (a : Action)
    (hreal : ∀ p r, env.realpath p = some r → canonical_form r = true)
    (hc : canonical_form fm.current_path = true) :
    canonical_form (step env fm a).current_path = true := by
  cases a with
  | navigate path =>
    rcases navigate_to_path_current_path env fm path with h | h
    · simp only [step]
      rw [h]
      exact hc
    · exact hreal path _ h
  | go_up =>
    simp only [step, on_go_up]
    by_cases hroot : fm.current_path = ['/']
    · rw [if_neg (not_not.mpr hroot)]
      exact hc
    · rw [if_pos hroot, refresh_file_list_current_path]
      exact canonical_form_parent_path fm.current_path hc hroot
  | refresh =>
    simp only [step, on_refresh, refresh_file_list_current_path]
    exact hc
  | toggle_hidden =>
    simp only [step, on_toggle_hidden, refresh_file_list_current_path]
    exact hc

theorem run_canonical (trace : List (Env × Action)) (fm : FileManager)
    (hreal : ∀ ea ∈ trace, ∀ p r, ea.1.realpath p = some r → canonical_form r = true)
    (hc : canonical_form fm.current_path = true) :
    canonical_form (run fm trace).current_path = true := by
  induction trace generalizing fm with
  | nil => exact hc
  | cons ea rest ih =>
    obtain ⟨env, a⟩ := ea
    simp only [run]
    by_cases hcr : fm.crashed = true
    · rw [if_pos hcr]
      exact hc
    · rw [if_neg hcr]
      apply ih
      · intro ea hmem
        exact hreal ea (List.mem_cons_of_mem _ hmem)
      · exact step_canonical env fm a (hreal (env, a) (List.mem_cons_self _ _)) hc

theorem demo_env_realpath_canonical (p r : CStr) (h : demo_env.realpath p = some r) :
    canonical_form r = true := by
  simp only [demo_env] at h
  split_ifs at h with h1 h2 h3
  · cases h
    rcases h1 with rfl | rfl | rfl | rfl | rfl <;> decide
  · cases h
    decide
  · cases h
    rcases h3 with rfl | rfl <;> decide

/-- C10: assume `realpath` returns only canonical paths (absolute, no empty, `.`
or `..` segment, no trailing `'/'` except for the root), at the first navigation
and at every later callback. Then after a successful `navigate_to_path`
followed by any sequence of `on_go_up`, `on_refresh`, `on_toggle_hidden` and
`navigate_to_path` calls, failed or successful, `current_path` is canonical. -/
theorem current_path_stays_canonical (env : Env) (fm : FileManager)
    (path resolved : CStr) (st : Stat) (trace : List (Env × Action))
    (hreal : ∀ p r, env.realpath p = some r → canonical_form r = true)
    (hreals : ∀ ea ∈ trace, ∀ p r, ea.1.realpath p = some r → canonical_form r = true)
    (hst : env.stat path = some st) (hdir : st.is_dir = true)
    (hrp : env.realpath path = some resolved) :
    (navigate_to_path env fm path).current_path = resolved
    ∧ canonical_form (run (navigate_to_path env fm path) trace).current_path = true := by
  have hcur : (navigate_to_path env fm path).current_path = resolved := by
    simp [navigate_to_path, hst, hdir, hrp, refresh_file_list_current_path]
  refine ⟨hcur, run_canonical trace _ hreals ?_⟩
  rw [hcur]
  exact hreal path resolved hrp

set_option maxRecDepth 100000 in
theorem current_path_stays_canonical_witness :
    (run (navigate_to_path demo_env demo_fm "/home/u/up".toList) demo_trace).current_path
      = "/".toList
    ∧ canonical_form
        (run (navigate_to_path demo_env demo_fm "/home/u/up".toList) demo_trace).current_path
      = true :=
  ⟨by decide,
   (current_path_stays_canonical demo_env demo_fm "/home/u/up".toList "/home".toList
      { is_dir := true, st_size := 4096, st_mtime := 0 } demo_trace
      demo_env_realpath_canonical
      (by
        intro ea hmem p r h
        have he : ea.1 = demo_env := by
          simp only [demo_trace, List.mem_cons, List.mem_singleton, List.not_mem_nil,
            or_false] at hmem
          rcases hmem with rfl | rfl | rfl | rfl | rfl | rfl | rfl | rfl <;> rfl
        rw [he] at h
        exact demo_env_realpath_canonical p r h)
      (by decide) rfl (by decide)).2⟩

/-! ## C11 -/

/-- The number of rows built by a loop that does not fault: the names that pass
the hidden filter and whose `stat` succeeds. -/
theorem list_rows_length (env : Env) (cur : CStr) (sh : Bool) (names : List CStr)
    (hok : (list_rows env cur sh names).2 = false) :
    (list_rows env cur sh names).1.length =
      names.countP (fun n => passes_filter sh n && (env.stat (full_path env cur n)).isSome) := by
  have h := congrArg List.length (list_rows_names env cur sh names hok)
  rw [List.length_map] at h
  rw [h, List.countP_eq_length_filter]
  congr 2
  funext n
  by_cases h1 : n = ['.'] <;> by_cases h2 : n = ['.', '.'] <;>
    by_cases h3 : n.head? = some '.' <;> cases sh <;>
    simp [passes_filter, is_dot_or_dotdot, starts_with_dot, h1, h2, h3]

/-- A count splits along a second condition. -/
theorem countP_split {α : Type} (p q : α → Bool) (l : List α) :
    l.countP p = l.countP (fun a => p a && q a) + l.countP (fun a => p a && !q a) := by
  induction l with
  | nil => rfl
  | cons x xs ih =>
    cases hp : p x <;> cases hq : q x <;>
      simp [List.countP_cons, hp, hq, ih] <;> omega

/-- The visible count is the number of names that pass the hidden filter. -/
theorem visible_count_eq_countP (sh : Bool) (names : List CStr) :
    visible_count sh names = names.countP (passes_filter sh) := by
  cases sh with
  | true =>
    simp only [visible_count, total_count, if_true]
    congr 1
    funext n
    simp [passes_filter]
  | false =>
    have hsplit := countP_split (fun n : CStr => decide (n ≠ ['.'] ∧ n ≠ ['.', '.']))
      starts_with_dot names
    have e1 : names.countP
        (fun n => decide (n ≠ ['.'] ∧ n ≠ ['.', '.']) && starts_with_dot n)
        = hidden_count names := by
      unfold hidden_count
      congr 1
      funext n
      by_cases h1 : n = ['.'] <;> by_cases h2 : n = ['.', '.'] <;>
        by_cases h3 : n.head? = some '.' <;> simp [starts_with_dot, h1, h2, h3]
    have e2 : names.countP
        (fun n => decide (n ≠ ['.'] ∧ n ≠ ['.', '.']) && !starts_with_dot n)
        = names.countP (passes_filter false) := by
      congr 1
      funext n
      by_cases h1 : n = ['.'] <;> by_cases h2 : n = ['.', '.'] <;>
        by_cases h3 : n.head? = some '.' <;> simp [passes_filter, starts_with_dot, h1, h2, h3]
    have ht : total_count names
        = hidden_count names + names.countP (passes_filter false) := by
      rw [← e1, ← e2]
      exact hsplit
    simp only [visible_count, Bool.false_eq_true, if_false]
    rw [ht, Nat.add_sub_cancel_left]

/-- Counting with one more condition counts at most as many, and as many
exactly when the condition holds wherever the first one does. -/
theorem countP_and_eq_iff {α : Type} (p q : α → Bool) (l : List α) :
    l.countP (fun a => p a && q a) ≤ l.countP p
    ∧ (l.countP (fun a => p a && q a) = l.countP p ↔ ∀ a ∈ l, p a = true → q a = true) := by
  induction l with
  | nil => simp
  | cons x xs ih =>
    obtain ⟨hle, hiff⟩ := ih
    cases hp : p x <;> cases hq : q x <;>
      simp [List.countP_cons, hp, hq, hle, hiff]
    omega

/-- When the directory opens and the loop does not fault, the rows of the listing are at most the visible count, and as many
exactly when `stat` succeeds for every entry that passes the hidden filter. -/
theorem refresh_file_list_rows_le_visible_of_no_fault (env : Env) (fm : FileManager)
    (names : List CStr) (hod : env.opendir fm.current_path = some names)
    (hok : (list_rows env fm.current_path fm.show_hidden names).2 = false) :
    (refresh_file_list env fm).store.length ≤ visible_count fm.show_hidden names
    ∧ ((refresh_file_list env fm).store.length = visible_count fm.show_hidden names ↔
        ∀ n ∈ names, passes_filter fm.show_hidden n = true →
          (env.stat (full_path env fm.current_path n)).isSome = true) := by
  have hlenrows : (refresh_file_list env fm).store.length =
      names.countP (fun n => passes_filter fm.show_hidden n
        && (env.stat (full_path env fm.current_path n)).isSome) := by
    rw [refresh_file_list_store]
    simp only [hod]
    exact list_rows_length env fm.current_path fm.show_hidden names hok
  have hcount := countP_and_eq_iff (passes_filter fm.show_hidden)
    (fun n => (env.stat (full_path env fm.current_path n)).isSome) names
  rw [hlenrows, visible_count_eq_countP]
  exact hcount

set_option maxRecDepth 100000 in
/-- C11, at the failing input: `/t` shown with hidden entries. Both scans read
the same five names, `stat` succeeds for each of the three entries that pass
the hidden filter and the visible count is 3, so the listing should hold three
rows and the status line read `3 items`. The refresh faults at `.late`, whose
modification time `localtime` cannot convert: the store holds two rows, one of
them unset, and no status line is written. -/
theorem refresh_file_list_rows_fault :
    fault_env.opendir "/t".toList
      = some [".".toList, "..".toList, "a.txt".toList, ".late".toList, "z.txt".toList]
    ∧ (∀ n ∈ [".".toList, "..".toList, "a.txt".toList, ".late".toList, "z.txt".toList],
        passes_filter true n = true →
          (fault_env.stat (full_path fault_env "/t".toList n)).isSome = true)
    ∧ visible_count true
        [".".toList, "..".toList, "a.txt".toList, ".late".toList, "z.txt".toList] = 3
    ∧ (update_statusbar fault_env { fault_fm with show_hidden := true }).statusbar
        = ["3 items".toList]
    ∧ (refresh_file_list fault_env { fault_fm with show_hidden := true }).crashed = true
    ∧ (refresh_file_list fault_env { fault_fm with show_hidden := true }).store.length = 2
    ∧ (refresh_file_list fault_env { fault_fm with show_hidden := true }).store.getLast?
        = some unset_row
    ∧ (refresh_file_list fault_env { fault_fm with show_hidden := true }).statusbar = [] := by
  decide

end CFileManager
